import Mathlib

/-!
Verification of the remote namespace projection / reverse-callback bridge
(`ghidra_bridge/ghidra_bridge.py`).

The embedding models a Python `dict` namespace as an insertion-ordered
association list from string keys to entries.  An entry is either a plain
value (an `int`, a string, or a bridged remote object identified by its
attribute path) or the tracking record which `get_flat_api` stores under
the key `__ghidra_bridge_namespace_track__`.  The remote `__main__` module
is modelled by its ordered attribute list (`_bridge_attrs`) together with
a deterministic attribute resolver (`getattr`).
-/

set_option autoImplicit false

namespace GhidraBridgeSpec

/-- A plain Python value that can appear in a caller namespace: an integer,
a string, or a bridged remote object (identified by its remote path). -/
inductive Val where
  | int (n : Int)
  | str (s : String)
  | remoteObj (path : String)
deriving DecidableEq

/-- An entry of a caller namespace: a plain value, or the tracking dict that
`get_flat_api` installs under `GHIDRA_BRIDGE_NAMESPACE_TRACK`. -/
inductive Entry where
  | val (v : Val)
  | track (l : List (String × Val))
deriving DecidableEq

/-- A caller-supplied namespace (`locals()` / `globals()`): a Python dict,
modelled as an insertion-ordered association list with unique keys. -/
def Namespace : Type := List (String × Entry)

instance : DecidableEq Namespace := by
  unfold Namespace
  infer_instance

/-- `namespace[k]` lookup (`None` when the key is absent). -/
def nsGet (ns : Namespace) (k : String) : Option Entry :=
  match ns with
  | [] => none
  | (k', e) :: rest => if k' = k then some e else nsGet rest k

/-- `namespace[k] = e`: update the first binding of `k` in place, or append a
new binding, exactly as assignment behaves on an insertion-ordered dict. -/
def nsSet (ns : Namespace) (k : String) (e : Entry) : Namespace :=
  match ns with
  | [] => [(k, e)]
  | (k', e') :: rest => if k' = k then (k', e) :: rest else (k', e') :: nsSet rest k e

/-- `del namespace[k]`: remove the binding of `k` (a dict holds one binding
per key, so removing every pair with key `k` is `del`). -/
def nsDel (ns : Namespace) (k : String) : Namespace :=
  ns.filter (fun p => p.1 ≠ k)

/-- The module-level exclusion list of `ghidra_bridge.py`: remote names that
must never be loaded over the local namespace. -/
def EXCLUDED_REMOTE_IMPORTS : List String :=
  ["logging", "subprocess", "ghidra_bridge", "bridge", "GhidraBridgeServer"]

/-- The sentinel key used to track what `get_flat_api` added to a namespace. -/
def GHIDRA_BRIDGE_NAMESPACE_TRACK : String := "__ghidra_bridge_namespace_track__"

/-- `s.startswith("__")`: the first two characters are underscores.
(Stated over the character list so that concrete instances evaluate.) -/
def startsWithDunder (s : String) : Bool :=
  match s.data with
  | '_' :: '_' :: _ => true
  | _ => false

/-- The filter of the load loop: `not attr.startswith("__") and
attr not in EXCLUDED_REMOTE_IMPORTS`. -/
def projectedName (attr : String) : Bool :=
  !(startsWithDunder attr) && !(EXCLUDED_REMOTE_IMPORTS.contains attr)

/-- The remote `__main__` module obtained from `self.bridge.remote_import`:
its ordered attribute list `_bridge_attrs` and the deterministic resolver
modelling `getattr(remote_main, attr)`. -/
structure RemoteMain where
  _bridge_attrs : List String
  getattr : String → Val

/-- Assignment into the tracking dict
(`namespace[GHIDRA_BRIDGE_NAMESPACE_TRACK][attr] = remote_attr`): update the
existing key in place or append, preserving dict insertion order. -/
def dictInsert (l : List (String × Val)) (k : String) (v : Val) : List (String × Val) :=
  match l with
  | [] => [(k, v)]
  | (k', v') :: rest => if k' = k then (k', v) :: rest else (k', v') :: dictInsert rest k v

/-- First-match lookup in a tracking dict (`record[k]`). -/
def dictLookup (l : List (String × Val)) (k : String) : Option Val :=
  match l with
  | [] => none
  | (k', v) :: rest => if k' = k then some v else dictLookup rest k

/-- Read the tracking dict currently stored under the sentinel key (the load
loop only reads it in states where it is present and is a tracking dict). -/
def getTrack (ns : Namespace) : List (String × Val) :=
  match nsGet ns GHIDRA_BRIDGE_NAMESPACE_TRACK with
  | some (Entry.track l) => l
  | _ => []

/-- One iteration of the load loop of `get_flat_api` (lines 89-94): if the
attribute passes the filter, bind it in the namespace and record it in the
tracking dict stored under the sentinel key. -/
def loadStep (rm : RemoteMain) (ns : Namespace) (attr : String) : Namespace :=
  if projectedName attr then
    let v := rm.getattr attr
    let ns1 := nsSet ns attr (Entry.val v)
    nsSet ns1 GHIDRA_BRIDGE_NAMESPACE_TRACK
      (Entry.track (dictInsert (getTrack ns1) attr v))
  else ns

/-- The namespace-loading part of `get_flat_api` (lines 84-94): install a
fresh empty tracking dict under the sentinel key, then run the load loop
over `remote_main._bridge_attrs` in order. -/
def load_into_namespace (rm : RemoteMain) (ns : Namespace) : Namespace :=
  rm._bridge_attrs.foldl (loadStep rm)
    (nsSet ns GHIDRA_BRIDGE_NAMESPACE_TRACK (Entry.track []))

/-- The exposed names that the load loop projects, in exposure order. -/
def filteredAttrs (rm : RemoteMain) : List String :=
  rm._bridge_attrs.filter projectedName

/-- The tracking record a single load produces when the projected names are
distinct: the projected names in exposure order, each paired with its
resolved value. -/
def projRecord (rm : RemoteMain) : List (String × Val) :=
  (filteredAttrs rm).map (fun a => (a, rm.getattr a))

/-- Evolution of the tracking dict along the load loop, starting from `t`. -/
def projFold (rm : RemoteMain) (t : List (String × Val)) : List String → List (String × Val)
  | [] => t
  | a :: rest =>
    if projectedName a then projFold rm (dictInsert t a (rm.getattr a)) rest
    else projFold rm t rest

/-- The error conditions `unload_flat_api` can raise: the sentinel key is
absent (the `Exception` of lines 113-115, "nothing to undo"), or the entry
under the sentinel key is not a dict (Python would fail on `.items()`). -/
inductive UnloadError where
  | notProjected
  | attrError
deriving DecidableEq

/-- One iteration of the unload loop (lines 109-112):
`if key in namespace: if namespace[key] == value: del namespace[key]`. -/
def unloadStep (ns : Namespace) (kv : String × Val) : Namespace :=
  match nsGet ns kv.1 with
  | some e => if e = Entry.val kv.2 then nsDel ns kv.1 else ns
  | none => ns

/-- `unload_flat_api` on an explicitly supplied namespace (lines 108-115):
if the sentinel key is present, run the unload loop over the recorded pairs
in order; otherwise raise before touching the namespace.  The second
component is the namespace after the call (unchanged when an error is
raised, since the raise precedes the loop). -/
def unload_flat_api (ns : Namespace) : Option UnloadError × Namespace :=
  match nsGet ns GHIDRA_BRIDGE_NAMESPACE_TRACK with
  | some (Entry.track l) => (none, l.foldl unloadStep ns)
  | some (Entry.val _) => (some UnloadError.attrError, ns)
  | none => (some UnloadError.notProjected, ns)

/-! ### Basic lemmas about the namespace operations -/

theorem nsGet_nsSet (ns : Namespace) (k : String) (e : Entry) (k' : String) :
    nsGet (nsSet ns k e) k' = if k = k' then some e else nsGet ns k' := by
  induction ns with
  | nil =>
    simp [nsSet, nsGet]
  | cons p rest ih =>
    obtain ⟨k₀, e₀⟩ := p
    by_cases h₀ : k₀ = k <;> by_cases h₁ : k₀ = k' <;> by_cases h₂ : k = k' <;>
      simp_all [nsSet, nsGet]

theorem nsGet_nsDel (ns : Namespace) (k : String) (k' : String) :
    nsGet (nsDel ns k) k' = if k = k' then none else nsGet ns k' := by
  induction ns with
  | nil =>
    simp [nsDel, nsGet, ite_self]
  | cons p rest ih =>
    obtain ⟨k₀, e₀⟩ := p
    by_cases h₀ : k₀ = k <;> by_cases h₁ : k₀ = k' <;> by_cases h₂ : k = k' <;>
      simp_all [nsDel, nsGet, List.filter_cons]

theorem dictLookup_cons (k₀ : String) (v₀ : Val) (rest : List (String × Val)) (k : String) :
    dictLookup ((k₀, v₀) :: rest) k = if k₀ = k then some v₀ else dictLookup rest k := rfl

/-- Assigning a fresh key into a tracking dict appends it at the end. -/
theorem dictInsert_not_mem (l : List (String × Val)) (k : String) (v : Val)
    (h : k ∉ l.map Prod.fst) : dictInsert l k v = l ++ [(k, v)] := by
  induction l with
  | nil => rfl
  | cons p rest ih =>
    obtain ⟨k₀, v₀⟩ := p
    simp only [List.map_cons, List.mem_cons, not_or] at h
    have hne : ¬ k₀ = k := fun h' => h.1 h'.symm
    simp only [dictInsert, if_neg hne, List.cons_append, ih h.2]

/-! ### The load loop -/

/-- A name that passes the load filter does not start with `__`, so it is
never the sentinel key. -/
theorem projectedName_ne_track (a : String) (h : projectedName a = true) :
    a ≠ GHIDRA_BRIDGE_NAMESPACE_TRACK := by
  intro heq
  rw [heq] at h
  exact absurd h (by decide)

/-- Invariant of the load loop: starting from a namespace whose sentinel key
holds the tracking dict `t`, the loop (1) leaves the sentinel key holding the
evolved tracking dict, (2) binds every name passing the filter to its
resolved value, and (3) leaves every other binding unchanged. -/
theorem foldl_loadStep_spec (rm : RemoteMain) (attrs : List String) :
    ∀ (ns : Namespace) (t : List (String × Val)),
      nsGet ns GHIDRA_BRIDGE_NAMESPACE_TRACK = some (Entry.track t) →
      nsGet (attrs.foldl (loadStep rm) ns) GHIDRA_BRIDGE_NAMESPACE_TRACK
          = some (Entry.track (projFold rm t attrs))
      ∧ (∀ k, k ∈ attrs.filter projectedName →
          nsGet (attrs.foldl (loadStep rm) ns) k = some (Entry.val (rm.getattr k)))
      ∧ (∀ k, k ≠ GHIDRA_BRIDGE_NAMESPACE_TRACK → k ∉ attrs.filter projectedName →
          nsGet (attrs.foldl (loadStep rm) ns) k = nsGet ns k) := by
  induction attrs with
  | nil =>
    intro ns t h
    refine ⟨h, ?_, ?_⟩
    · intro k hk
      simp [List.filter_nil] at hk
    · intro k _ _
      rfl
  | cons a rest ih =>
    intro ns t h
    by_cases hp : projectedName a = true
    · have hne : a ≠ GHIDRA_BRIDGE_NAMESPACE_TRACK := projectedName_ne_track a hp
      have hget : getTrack (nsSet ns a (Entry.val (rm.getattr a))) = t := by
        unfold getTrack
        rw [nsGet_nsSet, if_neg hne, h]
      have hstep : loadStep rm ns a
          = nsSet (nsSet ns a (Entry.val (rm.getattr a))) GHIDRA_BRIDGE_NAMESPACE_TRACK
              (Entry.track (dictInsert t a (rm.getattr a))) := by
        unfold loadStep
        rw [if_pos hp]
        show nsSet (nsSet ns a (Entry.val (rm.getattr a))) GHIDRA_BRIDGE_NAMESPACE_TRACK
            (Entry.track (dictInsert (getTrack (nsSet ns a (Entry.val (rm.getattr a)))) a
              (rm.getattr a))) = _
        rw [hget]
      have htr : nsGet (loadStep rm ns a) GHIDRA_BRIDGE_NAMESPACE_TRACK
          = some (Entry.track (dictInsert t a (rm.getattr a))) := by
        rw [hstep, nsGet_nsSet, if_pos rfl]
      obtain ⟨H1, H2, H3⟩ := ih (loadStep rm ns a) (dictInsert t a (rm.getattr a)) htr
      have hfoldl : (a :: rest).foldl (loadStep rm) ns = rest.foldl (loadStep rm) (loadStep rm ns a) := rfl
      have hfilter : (a :: rest).filter projectedName = a :: rest.filter projectedName := by
        rw [List.filter_cons, if_pos hp]
      have hpf : projFold rm t (a :: rest) = projFold rm (dictInsert t a (rm.getattr a)) rest := by
        conv_lhs => rw [projFold]
        rw [if_pos hp]
      refine ⟨?_, ?_, ?_⟩
      · rw [hfoldl, hpf]
        exact H1
      · intro k hk
        rw [hfilter, List.mem_cons] at hk
        rw [hfoldl]
        by_cases hkr : k ∈ rest.filter projectedName
        · exact H2 k hkr
        · have hka : k = a := by
            rcases hk with hk | hk
            · exact hk
            · exact absurd hk hkr
          subst hka
          rw [H3 k hne hkr, hstep, nsGet_nsSet, if_neg (fun h' => hne h'.symm),
            nsGet_nsSet, if_pos rfl]
      · intro k hk hnk
        rw [hfilter, List.mem_cons, not_or] at hnk
        rw [hfoldl, H3 k hk hnk.2, hstep, nsGet_nsSet, if_neg (fun h' => hk h'.symm),
          nsGet_nsSet, if_neg (fun h' => hnk.1 h'.symm)]
    · have hp' : projectedName a = false := by
        rwa [Bool.not_eq_true] at hp
      have hstep : loadStep rm ns a = ns := by
        unfold loadStep
        rw [if_neg hp]
      have hfilter : (a :: rest).filter projectedName = rest.filter projectedName := by
        rw [List.filter_cons, if_neg hp]
      have hpf : projFold rm t (a :: rest) = projFold rm t rest := by
        conv_lhs => rw [projFold]
        rw [if_neg hp]
      obtain ⟨H1, H2, H3⟩ := ih ns t h
      have hfoldl : (a :: rest).foldl (loadStep rm) ns = rest.foldl (loadStep rm) ns := by
        simp [List.foldl_cons, hstep]
      refine ⟨?_, ?_, ?_⟩
      · rw [hfoldl, hpf]
        exact H1
      · intro k hk
        rw [hfilter] at hk
        rw [hfoldl]
        exact H2 k hk
      · intro k hk hnk
        rw [hfilter] at hnk
        rw [hfoldl]
        exact H3 k hk hnk

/-- When the names passing the filter are distinct and fresh for the initial
tracking dict, the load loop's tracking dict is the initial one extended, in
order, with one pair per projected name. -/
theorem projFold_append (rm : RemoteMain) (attrs : List String) :
    ∀ t : List (String × Val),
      (∀ a ∈ attrs.filter projectedName, a ∉ t.map Prod.fst) →
      (attrs.filter projectedName).Nodup →
      projFold rm t attrs
        = t ++ (attrs.filter projectedName).map (fun a => (a, rm.getattr a)) := by
  induction attrs with
  | nil =>
    intro t _ _
    simp [projFold]
  | cons a rest ih =>
    intro t hfresh hnd
    by_cases hp : projectedName a = true
    · have hfilter : (a :: rest).filter projectedName = a :: rest.filter projectedName := by
        rw [List.filter_cons, if_pos hp]
      rw [hfilter] at hfresh hnd
      have hnd' := List.nodup_cons.mp hnd
      have hins : dictInsert t a (rm.getattr a) = t ++ [(a, rm.getattr a)] :=
        dictInsert_not_mem t a (rm.getattr a) (hfresh a (List.mem_cons_self a _))
      have hfresh' : ∀ b ∈ rest.filter projectedName,
          b ∉ (t ++ [(a, rm.getattr a)]).map Prod.fst := by
        intro b hb
        rw [List.map_append, List.mem_append]
        rintro (hbt | hba)
        · exact hfresh b (List.mem_cons_of_mem a hb) hbt
        · simp only [List.map_cons, List.map_nil, List.mem_singleton] at hba
          exact hnd'.1 (hba ▸ hb)
      have : projFold rm t (a :: rest) = projFold rm (dictInsert t a (rm.getattr a)) rest := by
        conv_lhs => rw [projFold]
        rw [if_pos hp]
      rw [this, hins, ih (t ++ [(a, rm.getattr a)]) hfresh' hnd'.2, hfilter]
      simp
    · have hfilter : (a :: rest).filter projectedName = rest.filter projectedName := by
        rw [List.filter_cons, if_neg hp]
      rw [hfilter] at hfresh hnd
      have : projFold rm t (a :: rest) = projFold rm t rest := by
        conv_lhs => rw [projFold]
        rw [if_neg hp]
      rw [this, ih t hfresh hnd, hfilter]

/-- With distinct projected names, a load records exactly `projRecord`. -/
theorem projFold_record (rm : RemoteMain) (hnd : (filteredAttrs rm).Nodup) :
    projFold rm [] rm._bridge_attrs = projRecord rm := by
  have := projFold_append rm rm._bridge_attrs []
    (by intro a _ h; simp at h) hnd
  simpa [projRecord, filteredAttrs] using this

/-- After the load, the sentinel key holds the evolved tracking dict. -/
theorem load_track (rm : RemoteMain) (ns : Namespace) :
    nsGet (load_into_namespace rm ns) GHIDRA_BRIDGE_NAMESPACE_TRACK
      = some (Entry.track (projFold rm [] rm._bridge_attrs)) := by
  have h0 : nsGet (nsSet ns GHIDRA_BRIDGE_NAMESPACE_TRACK (Entry.track []))
      GHIDRA_BRIDGE_NAMESPACE_TRACK = some (Entry.track []) := by
    rw [nsGet_nsSet, if_pos rfl]
  exact (foldl_loadStep_spec rm rm._bridge_attrs _ [] h0).1

/-- After the load, the sentinel key holds exactly the order-preserving
record of the projected bindings (distinct projected names). -/
theorem load_track_record (rm : RemoteMain) (ns : Namespace)
    (hnd : (filteredAttrs rm).Nodup) :
    nsGet (load_into_namespace rm ns) GHIDRA_BRIDGE_NAMESPACE_TRACK
      = some (Entry.track (projRecord rm)) := by
  rw [load_track, projFold_record rm hnd]

/-- After the load, every projected name is bound to its resolved value. -/
theorem load_get_projected (rm : RemoteMain) (ns : Namespace) (k : String)
    (hk : k ∈ filteredAttrs rm) :
    nsGet (load_into_namespace rm ns) k = some (Entry.val (rm.getattr k)) := by
  have h0 : nsGet (nsSet ns GHIDRA_BRIDGE_NAMESPACE_TRACK (Entry.track []))
      GHIDRA_BRIDGE_NAMESPACE_TRACK = some (Entry.track []) := by
    rw [nsGet_nsSet, if_pos rfl]
  exact (foldl_loadStep_spec rm rm._bridge_attrs _ [] h0).2.1 k hk

/-- The load touches nothing but the projected names and the sentinel key. -/
theorem load_get_other (rm : RemoteMain) (ns : Namespace) (k : String)
    (h1 : k ≠ GHIDRA_BRIDGE_NAMESPACE_TRACK) (h2 : k ∉ filteredAttrs rm) :
    nsGet (load_into_namespace rm ns) k = nsGet ns k := by
  have h0 : nsGet (nsSet ns GHIDRA_BRIDGE_NAMESPACE_TRACK (Entry.track []))
      GHIDRA_BRIDGE_NAMESPACE_TRACK = some (Entry.track []) := by
    rw [nsGet_nsSet, if_pos rfl]
  have := (foldl_loadStep_spec rm rm._bridge_attrs _ [] h0).2.2 k h1 h2
  unfold load_into_namespace
  rw [this, nsGet_nsSet, if_neg (fun h => h1 h.symm)]

/-! ### The unload loop -/

theorem unloadStep_some_eq (ns : Namespace) (kv : String × Val) (e : Entry)
    (hg : nsGet ns kv.1 = some e) :
    unloadStep ns kv = if e = Entry.val kv.2 then nsDel ns kv.1 else ns := by
  unfold unloadStep
  rw [hg]

theorem unloadStep_none_eq (ns : Namespace) (kv : String × Val)
    (hg : nsGet ns kv.1 = none) : unloadStep ns kv = ns := by
  unfold unloadStep
  rw [hg]

/-- An unload-loop iteration never touches a key other than its own. -/
theorem unloadStep_get_ne (ns : Namespace) (kv : String × Val) (k : String)
    (h : k ≠ kv.1) : nsGet (unloadStep ns kv) k = nsGet ns k := by
  cases hg : nsGet ns kv.1 with
  | none => rw [unloadStep_none_eq ns kv hg]
  | some e =>
    rw [unloadStep_some_eq ns kv e hg]
    by_cases he : e = Entry.val kv.2
    · rw [if_pos he, nsGet_nsDel, if_neg (fun h' => h h'.symm)]
    · rw [if_neg he]

/-- An unload-loop iteration removes its key exactly when the current value
equals the recorded one. -/
theorem unloadStep_get_self (ns : Namespace) (kv : String × Val) :
    nsGet (unloadStep ns kv) kv.1
      = if nsGet ns kv.1 = some (Entry.val kv.2) then none else nsGet ns kv.1 := by
  cases hg : nsGet ns kv.1 with
  | none =>
    rw [unloadStep_none_eq ns kv hg, hg, if_neg (by simp)]
  | some e =>
    rw [unloadStep_some_eq ns kv e hg]
    by_cases he : e = Entry.val kv.2
    · rw [if_pos he, nsGet_nsDel, if_pos rfl, he]
      rw [if_pos rfl]
    · rw [if_neg he, hg, if_neg (by simp [he])]

/-- The unload loop never touches keys outside the record. -/
theorem foldl_unloadStep_frame (l : List (String × Val)) :
    ∀ (ns : Namespace) (k : String), k ∉ l.map Prod.fst →
      nsGet (l.foldl unloadStep ns) k = nsGet ns k := by
  induction l with
  | nil =>
    intro ns k _
    rfl
  | cons kv rest ih =>
    intro ns k hk
    simp only [List.map_cons, List.mem_cons, not_or] at hk
    rw [List.foldl_cons, ih (unloadStep ns kv) k hk.2, unloadStep_get_ne ns kv k hk.1]

/-- Full characterisation of the unload loop on a record with distinct keys:
a key is removed precisely when it is recorded and its current value equals
the recorded one; every other binding is untouched. -/
theorem foldl_unloadStep_get (l : List (String × Val)) :
    ∀ (ns : Namespace) (k : String), (l.map Prod.fst).Nodup →
      nsGet (l.foldl unloadStep ns) k
        = match dictLookup l k with
          | some v => if nsGet ns k = some (Entry.val v) then none else nsGet ns k
          | none => nsGet ns k := by
  induction l with
  | nil =>
    intro ns k _
    rfl
  | cons kv rest ih =>
    obtain ⟨a, v⟩ := kv
    intro ns k hnd
    simp only [List.map_cons, List.nodup_cons] at hnd
    by_cases hk : a = k
    · subst hk
      have hlk : dictLookup ((a, v) :: rest) a = some v := by
        simp [dictLookup]
      rw [List.foldl_cons, hlk,
        foldl_unloadStep_frame rest (unloadStep ns (a, v)) a hnd.1]
      exact unloadStep_get_self ns (a, v)
    · have hlk : dictLookup ((a, v) :: rest) k = dictLookup rest k := by
        simp [dictLookup, hk]
      have hne := unloadStep_get_ne ns (a, v) k (fun h => hk h.symm)
      rw [List.foldl_cons, ih (unloadStep ns (a, v)) k hnd.2, hlk]
      cases hl : dictLookup rest k with
      | none =>
        simp only [hl]
        exact hne
      | some v' =>
        simp only [hl, hne]

/-- `unload_flat_api` on a namespace with an active tracking dict runs the
unload loop and raises nothing. -/
theorem unload_flat_api_track (ns : Namespace) (l : List (String × Val))
    (h : nsGet ns GHIDRA_BRIDGE_NAMESPACE_TRACK = some (Entry.track l)) :
    unload_flat_api ns = (none, l.foldl unloadStep ns) := by
  unfold unload_flat_api
  rw [h]

theorem map_fst_pairs (f : String → Val) (names : List String) :
    (names.map fun a => (a, f a)).map Prod.fst = names := by
  induction names with
  | nil => rfl
  | cons a rest ih => simp [ih]

/-- The keys of `projRecord` are the projected names, in order. -/
theorem projRecord_keys (rm : RemoteMain) :
    (projRecord rm).map Prod.fst = filteredAttrs rm := by
  unfold projRecord
  exact map_fst_pairs rm.getattr (filteredAttrs rm)

/-- The sentinel key is never among the projected names. -/
theorem track_not_mem_filteredAttrs (rm : RemoteMain) :
    GHIDRA_BRIDGE_NAMESPACE_TRACK ∉ filteredAttrs rm := by
  intro h
  rw [filteredAttrs, List.mem_filter] at h
  exact projectedName_ne_track _ h.2 rfl

theorem dictLookup_map_mem (f : String → Val) (names : List String) (k : String)
    (hk : k ∈ names) :
    dictLookup (names.map fun a => (a, f a)) k = some (f k) := by
  induction names with
  | nil => cases hk
  | cons a rest ih =>
    by_cases ha : a = k
    · subst ha
      simp [dictLookup]
    · have hkr : k ∈ rest := by
        rcases List.mem_cons.mp hk with h | h
        · exact absurd h.symm ha
        · exact h
      simp [dictLookup, ha, ih hkr]

theorem dictLookup_map_not_mem (f : String → Val) (names : List String) (k : String)
    (hk : k ∉ names) :
    dictLookup (names.map fun a => (a, f a)) k = none := by
  induction names with
  | nil => rfl
  | cons a rest ih =>
    simp only [List.mem_cons, not_or] at hk
    have hak : ¬ a = k := fun h => hk.1 h.symm
    simp [dictLookup, hak, ih hk.2]

/-! ### The session: listener, construction, scoped exit -/

/-- A call issued against the remote tool's listener interface. -/
inductive RemoteCall where
  | addToolListener (id : Nat)
  | removeToolListener (id : Nat)
deriving DecidableEq

/-- Modelled from the spec: the remote tool's `removeToolListener` drops the
given listener from its registration list; removing a listener that is not
registered is a no-op (the remote tool is an external collaborator, specified
only at its interface). -/
def removeFirstListener (l : List Nat) (id : Nat) : List Nat :=
  match l with
  | [] => []
  | x :: rest => if x = id then rest else x :: removeFirstListener rest id

/-- The state of one `GhidraBridge` session together with the observable
remote side.  `bridgeConstructed`, `interactive_mode`, `interactive_listener`
and `bound`/`ns` model the session attributes `self.bridge`,
`self.interactive_mode`, `self.interactive_listener` and `self.namespace`
(`bound` is `self.namespace is not None`, `ns` the bound scope's contents).
`remoteCalls` logs every listener call sent to the remote tool,
`toolListeners` is the remote tool's registration list (modelled from the
spec), and `nextId` supplies identities for listener objects. -/
structure BridgeState where
  bridgeConstructed : Bool
  interactive_mode : Bool
  interactive_listener : Option Nat
  bound : Bool
  ns : Namespace
  remoteCalls : List RemoteCall
  toolListeners : List Nat
  nextId : Nat

/-- The interactive-listener block of `get_flat_api` (lines 55-82): in
interactive mode, if no listener exists yet, construct an
`InteractiveListener`, whose `__init__` registers it against the remote tool
(`tool.addToolListener(self)`); if one exists, do nothing. -/
def ensure_interactive_listener (s : BridgeState) : BridgeState :=
  if s.interactive_mode then
    match s.interactive_listener with
    | some _ => s
    | none =>
      { s with
        interactive_listener := some s.nextId
        nextId := s.nextId + 1
        remoteCalls := s.remoteCalls ++ [RemoteCall.addToolListener s.nextId]
        toolListeners := s.toolListeners ++ [s.nextId] }
  else s

/-- `get_flat_api` (lines 43-96): always runs the interactive-listener block,
then, when a namespace was passed (`usesNamespace` models
`namespace is not None`), loads the remote attributes into it. -/
def get_flat_api (rm : RemoteMain) (usesNamespace : Bool) (s : BridgeState) : BridgeState :=
  let s1 := ensure_interactive_listener s
  if usesNamespace then { s1 with ns := load_into_namespace rm s1.ns } else s1

/-- `InteractiveListener.__del__` (lines 67-69): unconditionally issues
`self.tool.removeToolListener(self)` against the remote tool. -/
def interactiveListener_del (s : BridgeState) : BridgeState :=
  match s.interactive_listener with
  | some id =>
    { s with
      remoteCalls := s.remoteCalls ++ [RemoteCall.removeToolListener id]
      toolListeners := removeFirstListener s.toolListeners id }
  | none => s

/-- The error `GhidraBridge.__init__` raises when a namespace is requested
without a server (lines 36-38). -/
inductive InitError where
  | needServer
deriving DecidableEq

/-- `GhidraBridge.__init__` (lines 16-41): construct the transport client,
record the mode flags; when a namespace is given, require host and port,
bind the namespace and call `get_flat_api` on it; otherwise return with no
listener created and the namespace untouched. -/
def GhidraBridge_init (rm : RemoteMain) (hostGiven portGiven : Bool)
    (namespaceGiven : Bool) (ns0 : Namespace) (interactive : Bool) :
    Option InitError × BridgeState :=
  let s : BridgeState :=
    { bridgeConstructed := true
      interactive_mode := interactive
      interactive_listener := none
      bound := false
      ns := ns0
      remoteCalls := []
      toolListeners := []
      nextId := 0 }
  if namespaceGiven then
    if hostGiven = false ∨ portGiven = false then (some InitError.needServer, s)
    else (none, get_flat_api rm true { s with bound := true })
  else (none, s)

/-- `GhidraBridge.__exit__` (lines 133-134): when a namespace was bound at
construction, call `unload_flat_api` on it (once); otherwise do nothing. -/
def GhidraBridge_exit (s : BridgeState) : Option UnloadError × BridgeState :=
  if s.bound then
    ((unload_flat_api s.ns).1, { s with ns := (unload_flat_api s.ns).2 })
  else (none, s)

def isAddToolListener : RemoteCall → Bool
  | RemoteCall.addToolListener _ => true
  | RemoteCall.removeToolListener _ => false

/-- How many registration calls the remote tool has received. -/
def countAddListenerCalls (calls : List RemoteCall) : Nat :=
  (calls.filter isAddToolListener).length

/-! ### Concrete instances used by witnesses and counterexamples -/

/-- A concrete remote `__main__`: exposes `foo` and `bar` (resolving to 10
and 20), a dunder name, and a name on the exclusion list. -/
def wRm : RemoteMain :=
  ⟨["foo", "bar", "__doc__", "bridge"],
   fun a => if a = "foo" then Val.int 10 else Val.int 20⟩

/-- The scope of the spec's worked scenario: `S = {"x": 1}`. -/
def wNsX : Namespace := [("x", Entry.val (Val.int 1))]

/-- A scope that already binds `foo` before any load. -/
def wNsFoo : Namespace := [("foo", Entry.val (Val.int 1))]

/-- A fresh empty scope. -/
def wEmpty : Namespace := []

/-! ### Claim C4 -/

/-- C4: after `get_flat_api` with a namespace returns, every exposed remote
name that does not start with `__` and is not in `EXCLUDED_REMOTE_IMPORTS`
is bound in the target namespace to its resolved value, and the sentinel key
holds a complete, order-preserving record of exactly those `(name, value)`
bindings and no others (`projRecord`), given that the exposed names passing
the filter are distinct (as a module's attribute list is). -/
theorem load_projects_all_c4 (rm : RemoteMain) (ns : Namespace)
    (hnd : (filteredAttrs rm).Nodup) :
    (∀ a, a ∈ rm._bridge_attrs → projectedName a = true →
        nsGet (load_into_namespace rm ns) a = some (Entry.val (rm.getattr a)))
    ∧ nsGet (load_into_namespace rm ns) GHIDRA_BRIDGE_NAMESPACE_TRACK
        = some (Entry.track (projRecord rm)) := by
  constructor
  · intro a ha hp
    exact load_get_projected rm ns a (List.mem_filter.mpr ⟨ha, hp⟩)
  · exact load_track_record rm ns hnd

/-- Witness for C4 at the concrete remote: `foo` is bound to 10 and the
sentinel record is exactly the two projected bindings, in exposure order. -/
theorem load_projects_all_c4_witness :
    nsGet (load_into_namespace wRm wEmpty) "foo" = some (Entry.val (Val.int 10))
    ∧ nsGet (load_into_namespace wRm wEmpty) GHIDRA_BRIDGE_NAMESPACE_TRACK
        = some (Entry.track [("foo", Val.int 10), ("bar", Val.int 20)]) :=
  ⟨(load_projects_all_c4 wRm wEmpty (by decide)).1 "foo" (by decide) (by decide),
   (load_projects_all_c4 wRm wEmpty (by decide)).2⟩

/-! ### Claim C10 -/

/-- C10: a name bound before the load that is neither a projected exposed
name nor the sentinel key keeps its binding: the load mutates only the
projected names and the sentinel key. -/
theorem load_frame_c10 (rm : RemoteMain) (ns : Namespace) (k : String)
    (h1 : k ≠ GHIDRA_BRIDGE_NAMESPACE_TRACK) (h2 : k ∉ filteredAttrs rm) :
    nsGet (load_into_namespace rm ns) k = nsGet ns k :=
  load_get_other rm ns k h1 h2

/-- Witness for C10: the pre-existing binding `x` survives the load. -/
theorem load_frame_c10_witness :
    nsGet (load_into_namespace wRm wNsX) "x" = nsGet wNsX "x" :=
  load_frame_c10 wRm wNsX "x" (by decide) (by decide)

/-! ### Claim C1 -/

/-- C1: if the caller rebinds a projected name `a` to a value `w` different
from the recorded one after the load, `unload_flat_api` succeeds, leaves `a`
bound to `w`, and removes only names whose current value still equals the
recorded value (a removed name was either absent already or bound to exactly
its recorded value). -/
theorem unload_non_clobbering_c1 (rm : RemoteMain) (ns0 : Namespace)
    (a : String) (w : Entry) (hnd : (filteredAttrs rm).Nodup)
    (ha : a ∈ filteredAttrs rm) (hw : w ≠ Entry.val (rm.getattr a)) :
    (unload_flat_api (nsSet (load_into_namespace rm ns0) a w)).1 = none
    ∧ nsGet (unload_flat_api (nsSet (load_into_namespace rm ns0) a w)).2 a = some w
    ∧ ∀ k, nsGet (unload_flat_api (nsSet (load_into_namespace rm ns0) a w)).2 k = none →
        nsGet (nsSet (load_into_namespace rm ns0) a w) k = none
        ∨ nsGet (nsSet (load_into_namespace rm ns0) a w) k
            = Option.map Entry.val (dictLookup (projRecord rm) k) := by
  have hp : projectedName a = true := (List.mem_filter.mp ha).2
  have hane : a ≠ GHIDRA_BRIDGE_NAMESPACE_TRACK := projectedName_ne_track a hp
  have htr2 : nsGet (nsSet (load_into_namespace rm ns0) a w) GHIDRA_BRIDGE_NAMESPACE_TRACK
      = some (Entry.track (projRecord rm)) := by
    rw [nsGet_nsSet, if_neg hane, load_track_record rm ns0 hnd]
  have hkeys : ((projRecord rm).map Prod.fst).Nodup := by
    rw [projRecord_keys]
    exact hnd
  have hrun : unload_flat_api (nsSet (load_into_namespace rm ns0) a w)
      = (none, (projRecord rm).foldl unloadStep (nsSet (load_into_namespace rm ns0) a w)) :=
    unload_flat_api_track _ _ htr2
  have hchar := fun k => foldl_unloadStep_get (projRecord rm)
    (nsSet (load_into_namespace rm ns0) a w) k hkeys
  refine ⟨by rw [hrun], ?_, ?_⟩
  · have hlk : dictLookup (projRecord rm) a = some (rm.getattr a) :=
      dictLookup_map_mem rm.getattr (filteredAttrs rm) a ha
    have hgw : nsGet (nsSet (load_into_namespace rm ns0) a w) a = some w := by
      rw [nsGet_nsSet, if_pos rfl]
    rw [hrun]
    have := hchar a
    rw [hlk] at this
    simp only [] at this
    rw [this, hgw, if_neg (by simp [hw])]
  · intro k hnone
    rw [hrun] at hnone
    have := hchar k
    cases hlk : dictLookup (projRecord rm) k with
    | none =>
      rw [hlk] at this
      simp only [] at this
      left
      rw [← this]
      exact hnone
    | some v =>
      rw [hlk] at this
      simp only [] at this
      by_cases hv : nsGet (nsSet (load_into_namespace rm ns0) a w) k = some (Entry.val v)
      · right
        rw [hv]
        rfl
      · left
        rw [if_neg hv] at this
        rw [← this]
        exact hnone

/-- Witness for C1: after rebinding `foo` to 99, unload succeeds, keeps
`foo` at 99, and the removed name `bar` was bound to its recorded value. -/
theorem unload_non_clobbering_c1_witness :
    (unload_flat_api (nsSet (load_into_namespace wRm wEmpty) "foo" (Entry.val (Val.int 99)))).1 = none
    ∧ nsGet (unload_flat_api (nsSet (load_into_namespace wRm wEmpty) "foo"
        (Entry.val (Val.int 99)))).2 "foo" = some (Entry.val (Val.int 99))
    ∧ (nsGet (nsSet (load_into_namespace wRm wEmpty) "foo" (Entry.val (Val.int 99))) "bar" = none
       ∨ nsGet (nsSet (load_into_namespace wRm wEmpty) "foo" (Entry.val (Val.int 99))) "bar"
           = Option.map Entry.val (dictLookup (projRecord wRm) "bar")) :=
  ⟨(unload_non_clobbering_c1 wRm wEmpty "foo" (Entry.val (Val.int 99))
      (by decide) (by decide) (by decide)).1,
   (unload_non_clobbering_c1 wRm wEmpty "foo" (Entry.val (Val.int 99))
      (by decide) (by decide) (by decide)).2.1,
   (unload_non_clobbering_c1 wRm wEmpty "foo" (Entry.val (Val.int 99))
      (by decide) (by decide) (by decide)).2.2 "bar" (by decide)⟩

/-! ### Claim C2 -/

/-- C2 fails as stated: if a name in the exposed set was already bound before
the load, the load overwrites it and the unload then deletes it, so its
post-unload binding (absent) differs from its pre-load binding.  Concretely:
`foo` is bound to 1 before the load, the remote resolves `foo` to 10, and
after load-then-unload (with no caller modification) `foo` is gone. -/
theorem projection_symmetry_c2_counterexample :
    nsGet wNsFoo "foo" = some (Entry.val (Val.int 1))
    ∧ (unload_flat_api (load_into_namespace wRm wNsFoo)).1 = none
    ∧ nsGet (unload_flat_api (load_into_namespace wRm wNsFoo)).2 "foo" = none
    ∧ nsGet (unload_flat_api (load_into_namespace wRm wNsFoo)).2 "foo" ≠ nsGet wNsFoo "foo" := by
  decide

/-- C2 amended: for every scope and every exposed name `k` passing the filter
that was *not bound in the scope before the load*, load followed by unload
(with no caller modification) restores `k`'s binding to its pre-load state
(absent before, absent after).  The projected names are assumed distinct. -/
theorem projection_symmetry_c2_amended (rm : RemoteMain) (ns0 : Namespace)
    (k : String) (hnd : (filteredAttrs rm).Nodup) (hk : k ∈ filteredAttrs rm)
    (hpre : nsGet ns0 k = none) :
    (unload_flat_api (load_into_namespace rm ns0)).1 = none
    ∧ nsGet (unload_flat_api (load_into_namespace rm ns0)).2 k = nsGet ns0 k := by
  have htr : nsGet (load_into_namespace rm ns0) GHIDRA_BRIDGE_NAMESPACE_TRACK
      = some (Entry.track (projRecord rm)) := load_track_record rm ns0 hnd
  have hrun : unload_flat_api (load_into_namespace rm ns0)
      = (none, (projRecord rm).foldl unloadStep (load_into_namespace rm ns0)) :=
    unload_flat_api_track _ _ htr
  have hkeys : ((projRecord rm).map Prod.fst).Nodup := by
    rw [projRecord_keys]
    exact hnd
  refine ⟨by rw [hrun], ?_⟩
  have hchar := foldl_unloadStep_get (projRecord rm) (load_into_namespace rm ns0) k hkeys
  have hlk : dictLookup (projRecord rm) k = some (rm.getattr k) :=
    dictLookup_map_mem rm.getattr (filteredAttrs rm) k hk
  have hload : nsGet (load_into_namespace rm ns0) k = some (Entry.val (rm.getattr k)) :=
    load_get_projected rm ns0 k hk
  rw [hlk] at hchar
  simp only [] at hchar
  rw [hrun]
  show nsGet ((projRecord rm).foldl unloadStep (load_into_namespace rm ns0)) k = nsGet ns0 k
  rw [hchar, hload, if_pos rfl, hpre]

/-- Witness for the amended C2: `foo` is unbound in the empty scope, and is
unbound again after load-then-unload. -/
theorem projection_symmetry_c2_amended_witness :
    (unload_flat_api (load_into_namespace wRm wEmpty)).1 = none
    ∧ nsGet (unload_flat_api (load_into_namespace wRm wEmpty)).2 "foo" = nsGet wEmpty "foo" :=
  projection_symmetry_c2_amended wRm wEmpty "foo" (by decide) (by decide) (by decide)

/-! ### Claim C5 -/

/-- C5: `unload_flat_api` on a namespace without the sentinel key fails with
the nothing-to-undo error and returns the namespace completely unmutated
(the raise happens before the removal loop). -/
theorem unload_not_projected_c5 (ns : Namespace)
    (h : nsGet ns GHIDRA_BRIDGE_NAMESPACE_TRACK = none) :
    unload_flat_api ns = (some UnloadError.notProjected, ns) := by
  unfold unload_flat_api
  rw [h]

/-- Witness for C5, the spec's scenario: unload on a fresh empty scope
raises and the scope remains `{}`. -/
theorem unload_not_projected_c5_witness :
    unload_flat_api wEmpty = (some UnloadError.notProjected, wEmpty) :=
  unload_not_projected_c5 wEmpty (by decide)

/-! ### Claim C3 -/

/-- C3 is contradicted by the code: `unload_flat_api` has no statement
removing the sentinel key, so after the spec's own scenario (scope
`{"x": 1}`, remote exposing `foo` -> 10 and `bar` -> 20, caller rebinding
`foo` to 99, then unload) the namespace still binds
`__ghidra_bridge_namespace_track__` to the full tracking record, while every
other binding behaves as the scenario describes. -/
theorem unload_sentinel_leak_c3 :
    (unload_flat_api (nsSet (load_into_namespace wRm wNsX) "foo" (Entry.val (Val.int 99)))).1 = none
    ∧ nsGet (unload_flat_api (nsSet (load_into_namespace wRm wNsX) "foo"
        (Entry.val (Val.int 99)))).2 "x" = some (Entry.val (Val.int 1))
    ∧ nsGet (unload_flat_api (nsSet (load_into_namespace wRm wNsX) "foo"
        (Entry.val (Val.int 99)))).2 "foo" = some (Entry.val (Val.int 99))
    ∧ nsGet (unload_flat_api (nsSet (load_into_namespace wRm wNsX) "foo"
        (Entry.val (Val.int 99)))).2 "bar" = none
    ∧ nsGet (unload_flat_api (nsSet (load_into_namespace wRm wNsX) "foo"
        (Entry.val (Val.int 99)))).2 GHIDRA_BRIDGE_NAMESPACE_TRACK
        = some (Entry.track [("foo", Val.int 10), ("bar", Val.int 20)]) := by
  decide

/-! ### Claim C6 -/

/-- C6: the first half holds (two loads leave a single sentinel record equal
to a single load's record), but the second half is contradicted by the code:
after load-load-unload on an initially empty scope, every projected name is
removed, yet the sentinel key is still bound, so the scope is not returned to
its pre-load state — the single unload does not fully reverse the
projection. -/
theorem reload_overwrite_c6 :
    nsGet (load_into_namespace wRm (load_into_namespace wRm wEmpty)) GHIDRA_BRIDGE_NAMESPACE_TRACK
        = some (Entry.track [("foo", Val.int 10), ("bar", Val.int 20)])
    ∧ nsGet (load_into_namespace wRm (load_into_namespace wRm wEmpty)) GHIDRA_BRIDGE_NAMESPACE_TRACK
        = nsGet (load_into_namespace wRm wEmpty) GHIDRA_BRIDGE_NAMESPACE_TRACK
    ∧ (unload_flat_api (load_into_namespace wRm (load_into_namespace wRm wEmpty))).1 = none
    ∧ nsGet (unload_flat_api (load_into_namespace wRm (load_into_namespace wRm wEmpty))).2 "foo" = none
    ∧ nsGet (unload_flat_api (load_into_namespace wRm (load_into_namespace wRm wEmpty))).2 "bar" = none
    ∧ nsGet (unload_flat_api (load_into_namespace wRm (load_into_namespace wRm wEmpty))).2
        GHIDRA_BRIDGE_NAMESPACE_TRACK = some (Entry.track [("foo", Val.int 10), ("bar", Val.int 20)])
    ∧ (unload_flat_api (load_into_namespace wRm (load_into_namespace wRm wEmpty))).2 ≠ wEmpty := by
  decide

/-! ### Claim C7 -/

/-- C7: from a fresh interactive session, two `get_flat_api` calls (with or
without namespaces) create the listener once and issue exactly one remote
registration call; the listener's teardown run twice leaves the remote tool
with no registration after the first run and performs no further effective
unregistration on the second (and raises nothing, being total). -/
theorem listener_idempotence_c7 (rm : RemoteMain) (s0 : BridgeState) (b1 b2 : Bool)
    (hmode : s0.interactive_mode = true) (hnone : s0.interactive_listener = none)
    (hcalls : s0.remoteCalls = []) (htool : s0.toolListeners = []) :
    countAddListenerCalls (get_flat_api rm b2 (get_flat_api rm b1 s0)).remoteCalls = 1
    ∧ (get_flat_api rm b2 (get_flat_api rm b1 s0)).toolListeners = [s0.nextId]
    ∧ (interactiveListener_del (get_flat_api rm b2 (get_flat_api rm b1 s0))).toolListeners = []
    ∧ (interactiveListener_del (interactiveListener_del
          (get_flat_api rm b2 (get_flat_api rm b1 s0)))).toolListeners
        = (interactiveListener_del (get_flat_api rm b2 (get_flat_api rm b1 s0))).toolListeners := by
  cases b1 <;> cases b2 <;>
    simp [get_flat_api, ensure_interactive_listener, interactiveListener_del,
      countAddListenerCalls, isAddToolListener, removeFirstListener,
      hmode, hnone, hcalls, htool]

/-- A fresh interactive session state. -/
def wS0 : BridgeState :=
  ⟨true, true, none, false, wEmpty, [], [], 0⟩

/-- Witness for C7 at a fresh interactive session. -/
theorem listener_idempotence_c7_witness :
    countAddListenerCalls (get_flat_api wRm false (get_flat_api wRm true wS0)).remoteCalls = 1
    ∧ (get_flat_api wRm false (get_flat_api wRm true wS0)).toolListeners = [wS0.nextId]
    ∧ (interactiveListener_del (get_flat_api wRm false (get_flat_api wRm true wS0))).toolListeners = []
    ∧ (interactiveListener_del (interactiveListener_del
          (get_flat_api wRm false (get_flat_api wRm true wS0)))).toolListeners
        = (interactiveListener_del (get_flat_api wRm false (get_flat_api wRm true wS0))).toolListeners :=
  listener_idempotence_c7 wRm wS0 true false rfl rfl rfl rfl

/-! ### Claim C8 -/

/-- C8 fails as stated: constructing the session with no scope and the
interactive flag true creates no listener and issues no remote registration
call (the listener is only created inside `get_flat_api`, which `__init__`
calls only when a namespace is given), though the transport handle is
constructed. -/
theorem init_no_scope_c8_counterexample :
    (GhidraBridge_init wRm true true false wEmpty true).2.bridgeConstructed = true
    ∧ (GhidraBridge_init wRm true true false wEmpty true).1 = none
    ∧ (GhidraBridge_init wRm true true false wEmpty true).2.interactive_listener = none
    ∧ (GhidraBridge_init wRm true true false wEmpty true).2.remoteCalls = [] := by
  decide

/-- C8 amended: construction always builds the transport handle; when no
scope is given, construction succeeds, performs no load and creates no
listener even in interactive mode; when a scope is given (with host and
port), it is bound and loaded immediately, and the listener is created and
registered exactly once precisely in interactive mode. -/
theorem init_behaviour_c8_amended (rm : RemoteMain) (ns0 : Namespace)
    (interactive hostGiven portGiven namespaceGiven : Bool) :
    (GhidraBridge_init rm hostGiven portGiven namespaceGiven ns0 interactive).2.bridgeConstructed = true
    ∧ (GhidraBridge_init rm hostGiven portGiven false ns0 interactive).1 = none
    ∧ (GhidraBridge_init rm hostGiven portGiven false ns0 interactive).2.interactive_listener = none
    ∧ (GhidraBridge_init rm hostGiven portGiven false ns0 interactive).2.remoteCalls = []
    ∧ (GhidraBridge_init rm hostGiven portGiven false ns0 interactive).2.ns = ns0
    ∧ (GhidraBridge_init rm hostGiven portGiven false ns0 interactive).2.bound = false
    ∧ (GhidraBridge_init rm true true true ns0 interactive).1 = none
    ∧ (GhidraBridge_init rm true true true ns0 interactive).2.bound = true
    ∧ (GhidraBridge_init rm true true true ns0 interactive).2.ns = load_into_namespace rm ns0
    ∧ (GhidraBridge_init rm true true true ns0 true).2.interactive_listener = some 0
    ∧ countAddListenerCalls (GhidraBridge_init rm true true true ns0 true).2.remoteCalls = 1
    ∧ (GhidraBridge_init rm true true true ns0 false).2.interactive_listener = none := by
  cases interactive <;> cases hostGiven <;> cases portGiven <;> cases namespaceGiven <;>
    simp [GhidraBridge_init, get_flat_api, ensure_interactive_listener,
      countAddListenerCalls, isAddToolListener]

/-! ### Claim C9 -/

/-- C9: for a session with a bound scope on which load then a manual unload
already ran, `__exit__` attempts the unload on that same scope exactly once
and raises nothing — in particular it does not raise the nothing-to-undo
condition after the manual unload (because the unload loop leaves the
sentinel key in place, the second unload still finds it). -/
theorem exit_after_manual_unload_c9 (rm : RemoteMain) (ns0 : Namespace)
    (s : BridgeState) (hnd : (filteredAttrs rm).Nodup) (hb : s.bound = true)
    (hns : s.ns = (unload_flat_api (load_into_namespace rm ns0)).2) :
    (unload_flat_api (load_into_namespace rm ns0)).1 = none
    ∧ (GhidraBridge_exit s).1 = none
    ∧ (GhidraBridge_exit s).2.ns = (unload_flat_api s.ns).2 := by
  have htr : nsGet (load_into_namespace rm ns0) GHIDRA_BRIDGE_NAMESPACE_TRACK
      = some (Entry.track (projRecord rm)) := load_track_record rm ns0 hnd
  have hrun : unload_flat_api (load_into_namespace rm ns0)
      = (none, (projRecord rm).foldl unloadStep (load_into_namespace rm ns0)) :=
    unload_flat_api_track _ _ htr
  have hTnotin : GHIDRA_BRIDGE_NAMESPACE_TRACK ∉ (projRecord rm).map Prod.fst := by
    rw [projRecord_keys]
    exact track_not_mem_filteredAttrs rm
  have h2 : nsGet s.ns GHIDRA_BRIDGE_NAMESPACE_TRACK = some (Entry.track (projRecord rm)) := by
    rw [hns, hrun]
    show nsGet ((projRecord rm).foldl unloadStep (load_into_namespace rm ns0))
        GHIDRA_BRIDGE_NAMESPACE_TRACK = _
    rw [foldl_unloadStep_frame _ _ _ hTnotin, htr]
  have hrun2 := unload_flat_api_track s.ns _ h2
  refine ⟨by rw [hrun], ?_, ?_⟩
  · unfold GhidraBridge_exit
    rw [if_pos hb, hrun2]
  · unfold GhidraBridge_exit
    rw [if_pos hb]

/-- A session state whose bound scope already went through load and a manual
unload. -/
def wS9 : BridgeState :=
  ⟨true, false, none, true, (unload_flat_api (load_into_namespace wRm wEmpty)).2, [], [], 0⟩

/-- Witness for C9: exiting after a manual unload raises nothing. -/
theorem exit_after_manual_unload_c9_witness :
    (unload_flat_api (load_into_namespace wRm wEmpty)).1 = none
    ∧ (GhidraBridge_exit wS9).1 = none
    ∧ (GhidraBridge_exit wS9).2.ns = (unload_flat_api wS9.ns).2 :=
  exit_after_manual_unload_c9 wRm wEmpty wS9 (by decide) rfl rfl

end GhidraBridgeSpec
